import Mathlib

/-!
Verification development for the recommendtf repository: a collaborative-filtering
recommender over user and entity embedding matrices (src/src/recommendation.ts) with a
pluggable identity-index storage, by default the in-memory one (src/src/memory-storage.ts).

The embedding is shallow. Matrices are lists of rows of rationals; the external numeric
engine (tensorflow.js) is abstracted exactly where the spec declares it external:
random initial values are produced by a seed function, and the effect of one
optimizer.minimize call on the embedding variables is an elementwise, shape-keeping
rewrite given by an abstract update function. Everything else - the JavaScript Map and
Array semantics, the stable sort with the score comparator, slice with a negative end,
the registration, sizing, training, ranking and serialization logic - is translated
directly from the source files.
-/

set_option autoImplicit false

namespace RecommendTF

/-- Model of the TypeScript type Id = string | number (src/src/storage.ts line 4).
Numeric ids are modelled as integers; no claim needs a fractional or NaN id. -/
inductive JsId where
  | str : String → JsId
  | num : Int → JsId
  deriving DecidableEq, Repr

/-- End position of JavaScript Array.prototype.slice(0, e) on an array of length len:
a negative e counts from the end of the array, clamped below at 0; a nonnegative e is
clamped above at len. -/
def jsSliceEnd (len : Nat) (e : Int) : Nat :=
  if e < 0 then len - (-e).toNat else min e.toNat len

/-- JavaScript arr.slice(0, e). -/
def jsSliceTo {α : Type} (l : List α) (e : Int) : List α :=
  l.take (jsSliceEnd l.length e)

/-- Dot product of two rows: the per-row content of the tf.matMul calls in getUsers and
getEntities (src/src/recommendation.ts lines 299-301 and 322-324). -/
def dotQ (a b : List ℚ) : ℚ :=
  (List.zipWith (fun x y => x * y) a b).sum

/-- A score entry built by rankTop: the id found at the row index paired with the row
score (src/src/recommendation.ts line 341). In JavaScript ids[idx] is undefined when the
score array is longer than the id array, hence the Option. -/
abbrev Entry := Option JsId × ℚ

/-- Stable insertion of an entry into a descending list: x is placed directly before the
first element whose score is at most the score of x, hence after every earlier element
with an equal or larger score. Together with sortDesc this realises the JavaScript
stable Array.prototype.sort with the comparator (a, b) => b.score - a.score
(src/src/recommendation.ts line 342): descending by score, ties keep the input order. -/
def insertDesc (x : Entry) : List Entry → List Entry
  | [] => [x]
  | y :: ys => if y.2 ≤ x.2 then x :: y :: ys else y :: insertDesc x ys

/-- Insertion sort realising the stable descending sort used by rankTop; a stable sort
is determined by its comparator, so any conforming JavaScript engine produces this list. -/
def sortDesc (l : List Entry) : List Entry :=
  l.foldr insertDesc []

/-- The entry list scores.map((score, idx) => ids[idx] paired with score) built by
rankTop (src/src/recommendation.ts lines 340-341). -/
def entriesOf (scores : List ℚ) (ids : List JsId) : List Entry :=
  scores.enum.map (fun p => (ids.get? p.1, p.2))

/-- Model of Recommendation.rankTop (src/src/recommendation.ts lines 339-345): pair each
score with the id at its row index, sort descending by score with the stable JavaScript
sort, take slice(0, count) and project the ids. -/
def rankTop (scores : List ℚ) (ids : List JsId) (count : Int) : List (Option JsId) :=
  (jsSliceTo (sortDesc (entriesOf scores ids)) count).map Prod.fst

/-- A JavaScript Map modelled as its insertion-ordered entry list; every state a real
Map can reach has pairwise distinct keys, and Map.size is the entry count. -/
abbrev IdMap := List (JsId × Nat)

/-- JavaScript Map.get guarded by Map.has: the value stored under a key, if present. -/
def mapGet (m : IdMap) (id : JsId) : Option Nat :=
  (m.find? (fun p => decide (p.1 = id))).map Prod.snd

/-- JavaScript Map.prototype.set: a present key keeps its position and gets the new
value, an absent key is appended at the end. -/
def mapSet (m : IdMap) (id : JsId) (v : Nat) : IdMap :=
  if (m.find? (fun p => decide (p.1 = id))).isSome then
    m.map (fun p => if p.1 = id then (id, v) else p)
  else m ++ [(id, v)]

/-- new Map(entries): insert the entries in order into an empty map
(used by InMemoryStorage.importData, src/src/memory-storage.ts lines 99-100). -/
def mapFromEntries (l : IdMap) : IdMap :=
  l.foldl (fun m p => mapSet m p.1 p.2) []

/-- JavaScript array element assignment arr[i] = x: an in-bounds write updates in place,
a write at the length appends, a write past the length fills the skipped positions
(holes, undefined in JavaScript, never produced by this code because the write index is
always the current length) with empty-string ids to stay total. -/
def jsArrayWrite (l : List JsId) (i : Nat) (x : JsId) : List JsId :=
  if i < l.length then l.set i x
  else l ++ List.replicate (i - l.length) (JsId.str "") ++ [x]

/-- Model of the InMemoryStorage state (src/src/memory-storage.ts lines 8-16). -/
structure Storage where
  userMap : IdMap
  entityMap : IdMap
  reverseUserMap : List JsId
  reverseEntityMap : List JsId
  deriving DecidableEq, Repr

/-- A freshly constructed InMemoryStorage: both maps and both reverse arrays empty. -/
def emptyStorage : Storage :=
  ⟨[], [], [], []⟩

/-- Model of InMemoryStorage.getUserIndex (src/src/memory-storage.ts lines 23-25). -/
def Storage.getUserIndex (s : Storage) (id : JsId) : Option Nat :=
  mapGet s.userMap id

/-- Model of InMemoryStorage.getEntityIndex (src/src/memory-storage.ts lines 46-48). -/
def Storage.getEntityIndex (s : Storage) (id : JsId) : Option Nat :=
  mapGet s.entityMap id

/-- Model of InMemoryStorage.getOrCreateUserIndex (src/src/memory-storage.ts lines
32-39): an absent id receives the slot Map.size (the entry count before insertion), the
reverse array gets the id written at that slot, and the stored slot is returned. -/
def Storage.getOrCreateUserIndex (s : Storage) (id : JsId) : Nat × Storage :=
  match mapGet s.userMap id with
  | some idx => (idx, s)
  | none =>
      (s.userMap.length,
       { s with userMap := s.userMap ++ [(id, s.userMap.length)],
                reverseUserMap := jsArrayWrite s.reverseUserMap s.userMap.length id })

/-- Model of InMemoryStorage.getOrCreateEntityIndex (src/src/memory-storage.ts lines
55-62), symmetric to the user side. -/
def Storage.getOrCreateEntityIndex (s : Storage) (id : JsId) : Nat × Storage :=
  match mapGet s.entityMap id with
  | some idx => (idx, s)
  | none =>
      (s.entityMap.length,
       { s with entityMap := s.entityMap ++ [(id, s.entityMap.length)],
                reverseEntityMap := jsArrayWrite s.reverseEntityMap s.entityMap.length id })

/-- Model of InMemoryStorage.getAllUsers (src/src/memory-storage.ts lines 68-70). -/
def Storage.getAllUsers (s : Storage) : List JsId :=
  s.reverseUserMap

/-- Model of InMemoryStorage.getAllEntities (src/src/memory-storage.ts lines 76-78). -/
def Storage.getAllEntities (s : Storage) : List JsId :=
  s.reverseEntityMap

/-- Model of SerializableStorageData (src/src/storage.ts lines 9-18). -/
structure StorageData where
  userMap : IdMap
  entityMap : IdMap
  reverseUserMap : List JsId
  reverseEntityMap : List JsId
  deriving DecidableEq, Repr

/-- Model of InMemoryStorage.exportData (src/src/memory-storage.ts lines 84-91):
Array.from over the map entries and copies of the reverse arrays. -/
def Storage.exportData (s : Storage) : StorageData :=
  ⟨s.userMap, s.entityMap, s.reverseUserMap, s.reverseEntityMap⟩

/-- Model of InMemoryStorage.importData (src/src/memory-storage.ts lines 98-103): both
maps are rebuilt with new Map over the entry lists, the reverse arrays are copied; the
previous storage state is discarded entirely. -/
def Storage.importData (d : StorageData) : Storage :=
  ⟨mapFromEntries d.userMap, mapFromEntries d.entityMap, d.reverseUserMap, d.reverseEntityMap⟩

/-- Model of Interaction (src/src/recommendation.ts lines 40-47); a missing rating is
None and defaults to 1 during training. -/
structure Interaction where
  user : JsId
  entity : JsId
  rating : Option ℚ
  deriving DecidableEq, Repr

/-- Model of the Recommendation instance state (src/src/recommendation.ts lines 71-81).
The tensorflow handle and the adam optimizer object carry no model state here: the
optimizer effect on the variables is abstracted as the update function passed to fit. -/
structure Recommendation where
  epoch : Nat
  embeddingSize : Nat
  learningRate : ℚ
  batchSize : Nat
  storage : Storage
  userEmbeddings : List (List ℚ)
  entityEmbeddings : List (List ℚ)
  initialized : Bool
  deriving DecidableEq, Repr

/-- Model of the Recommendation constructor (src/src/recommendation.ts lines 87-101)
with the option values made explicit (source defaults: epoch 5, embeddingSize 16,
learningRate 0.05, batchSize 1000, a fresh InMemoryStorage). The embedding variables are
not yet assigned in the source; here they start as empty matrices. -/
def Recommendation.new (epoch embeddingSize : Nat) (learningRate : ℚ) (batchSize : Nat)
    (storage : Storage) : Recommendation :=
  ⟨epoch, embeddingSize, learningRate, batchSize, storage, [], [], false⟩

/-- Model of Recommendation.createEmbeddingsInBatches (src/src/recommendation.ts lines
135-163). The source concatenates tf.randomNormal chunks of at most batchSize rows
purely to bound peak memory; the concatenation of those chunks is a totalSize × dim
matrix of fresh independent draws, modelled by the seed function rnd giving the draw at
each position. A zero totalSize yields the empty matrix (tf.zeros with 0 rows). -/
def createEmbeddingsInBatches (rnd : Nat → Nat → ℚ) (totalSize dim : Nat) : List (List ℚ) :=
  (List.range totalSize).map (fun i => (List.range dim).map (fun j => rnd i j))

/-- Model of Recommendation.registerUsersAndEntitiesInBatches (src/src/recommendation.ts
lines 196-210): every interaction registers its user and then its entity, in data order.
The chunking by batchSize and the cooperative delays do not alter this sequential
effect on the storage. -/
def registerAll (s : Storage) (data : List Interaction) : Storage :=
  data.foldl
    (fun s it => ((s.getOrCreateUserIndex it.user).2.getOrCreateEntityIndex it.entity).2) s

/-- Model of Recommendation.initializeEmbeddings (src/src/recommendation.ts lines
112-126): size both matrices to the current slot populations and set the flag. -/
def Recommendation.initializeEmbeddings (rndU rndE : Nat → Nat → ℚ)
    (M : Recommendation) : Recommendation :=
  { M with
    userEmbeddings := createEmbeddingsInBatches rndU M.storage.getAllUsers.length M.embeddingSize,
    entityEmbeddings := createEmbeddingsInBatches rndE M.storage.getAllEntities.length M.embeddingSize,
    initialized := true }

/-- Model of Recommendation.resizeEmbeddingsIfNeeded (src/src/recommendation.ts lines
216-247): when the slot population exceeds the row count, freshly initialized rows are
concatenated after the existing rows (tf.concat of the old variable and the new rows);
otherwise the matrix is left alone. The user matrix is handled first, then the entity
matrix, as in the source. -/
def Recommendation.resizeEmbeddingsIfNeeded (rndU rndE : Nat → Nat → ℚ)
    (M : Recommendation) : Recommendation :=
  let userCount := M.storage.getAllUsers.length
  let M1 :=
    if M.userEmbeddings.length < userCount then
      { M with userEmbeddings :=
          M.userEmbeddings ++
            createEmbeddingsInBatches rndU (userCount - M.userEmbeddings.length) M.embeddingSize }
    else M
  let entityCount := M1.storage.getAllEntities.length
  if M1.entityEmbeddings.length < entityCount then
    { M1 with entityEmbeddings :=
        M1.entityEmbeddings ++
          createEmbeddingsInBatches rndE (entityCount - M1.entityEmbeddings.length) M1.embeddingSize }
  else M1

/-- Abstract elementwise effect one optimizer.minimize call has on one embedding
variable (src/src/recommendation.ts lines 263-275): tf differentiates the squared-error
loss and adam rewrites every element of the variable in place, keeping its shape. The
numeric content of that rewrite (gradients, adam moment accumulators, square roots) is
the external numeric engine; it is abstracted as a function of the global step counter,
the variable selector (true for userEmbeddings), the two resolved slots, the target
rating, the element position and the old element value. -/
abbrev UpdateFn := Nat → Bool → Nat → Nat → ℚ → Nat → Nat → ℚ → ℚ

/-- Elementwise rewrite of a matrix by a function of row index, column index and old
value: the shape-keeping variable assignment a tf optimizer performs. -/
def applyUpd (f : Nat → Nat → ℚ → ℚ) (m : List (List ℚ)) : List (List ℚ) :=
  m.enum.map (fun pr => pr.2.enum.map (fun pc => f pr.1 pc.1 pc.2))

/-- Model of one interaction step inside Recommendation.trainEpochInBatches
(src/src/recommendation.ts lines 258-276): resolve both slots, skip the step when either
is missing, otherwise apply one optimizer.minimize update to both embedding variables.
The default rating is 1 (line 273). -/
def Recommendation.trainInteraction (upd : UpdateFn) (t : Nat) (M : Recommendation)
    (it : Interaction) : Recommendation :=
  match M.storage.getUserIndex it.user, M.storage.getEntityIndex it.entity with
  | some ui, some ei =>
      { M with
        userEmbeddings := applyUpd (upd t true ui ei (it.rating.getD 1)) M.userEmbeddings,
        entityEmbeddings := applyUpd (upd t false ui ei (it.rating.getD 1)) M.entityEmbeddings }
  | _, _ => M

/-- Model of Recommendation.trainEpochInBatches (src/src/recommendation.ts lines
254-283): one pass over the data in order, threading the global step counter; the
chunking and the cooperative delays do not alter this sequential effect. -/
def Recommendation.trainEpoch (upd : UpdateFn) (data : List Interaction)
    (Mt : Recommendation × Nat) : Recommendation × Nat :=
  data.foldl (fun Mt it => (Recommendation.trainInteraction upd Mt.2 Mt.1 it, Mt.2 + 1)) Mt

/-- Registration and sizing phases of Recommendation.fit (src/src/recommendation.ts
lines 176-183): register every id of the data, then initialize the embeddings on first
use or grow them to the new populations. -/
def Recommendation.fitSized (rndU rndE : Nat → Nat → ℚ) (M : Recommendation)
    (data : List Interaction) : Recommendation :=
  let M1 : Recommendation := { M with storage := registerAll M.storage data }
  if M.initialized then M1.resizeEmbeddingsIfNeeded rndU rndE
  else M1.initializeEmbeddings rndU rndE

/-- Model of Recommendation.fit (src/src/recommendation.ts lines 172-189): an empty
interaction list (the default argument) returns at once with nothing changed; otherwise
registration, sizing, then epoch training passes over the data. -/
def Recommendation.fit (rndU rndE : Nat → Nat → ℚ) (upd : UpdateFn) (M : Recommendation)
    (data : List Interaction) : Recommendation :=
  if data.isEmpty then M
  else
    ((List.range M.epoch).foldl (fun Mt _ => Recommendation.trainEpoch upd data Mt)
      (M.fitSized rndU rndE data, 0)).1

/-- Model of Recommendation.getUsers (src/src/recommendation.ts lines 291-306): an
unknown entity yields the empty list before any tensor work; otherwise the entity row is
read (tf.slice of one row of width embeddingSize), every user row is scored by dot
product with it (tf.matMul against the transposed row) and rankTop orders the user ids. -/
def Recommendation.getUsers (M : Recommendation) (entity : JsId) (count : Int) :
    List (Option JsId) :=
  match M.storage.getEntityIndex entity with
  | none => []
  | some ei =>
      let entityVec := ((M.entityEmbeddings.get? ei).getD []).take M.embeddingSize
      rankTop (M.userEmbeddings.map (fun row => dotQ row entityVec))
        M.storage.getAllUsers count

/-- Model of Recommendation.getEntities (src/src/recommendation.ts lines 314-329),
symmetric to getUsers: the user row is scored against every entity row. -/
def Recommendation.getEntities (M : Recommendation) (user : JsId) (count : Int) :
    List (Option JsId) :=
  match M.storage.getUserIndex user with
  | none => []
  | some ui =>
      let userVec := ((M.userEmbeddings.get? ui).getD []).take M.embeddingSize
      rankTop (M.entityEmbeddings.map (fun row => dotQ row userVec))
        M.storage.getAllEntities count

/-- Model of SerializedModel (src/src/recommendation.ts lines 11-35); the nested config
block is flattened into the four fields it holds. -/
structure SerializedModel where
  epoch : Nat
  embeddingSize : Nat
  learningRate : ℚ
  batchSize : Nat
  userEmbeddings : List (List ℚ)
  entityEmbeddings : List (List ℚ)
  userMap : IdMap
  entityMap : IdMap
  reverseUserMap : List JsId
  reverseEntityMap : List JsId
  initialized : Bool
  version : String
  deriving DecidableEq, Repr

/-- The document Recommendation.export returns once the initialization guard has passed
(src/src/recommendation.ts lines 358-379): configuration verbatim, both embedding
matrices read back from the variables, the storage snapshot from exportData, the
initialized flag (true at this point) and version 1.0.0. -/
def docOf (M : Recommendation) : SerializedModel :=
  ⟨M.epoch, M.embeddingSize, M.learningRate, M.batchSize,
   M.userEmbeddings, M.entityEmbeddings,
   (M.storage.exportData).userMap, (M.storage.exportData).entityMap,
   (M.storage.exportData).reverseUserMap, (M.storage.exportData).reverseEntityMap,
   M.initialized, "1.0.0"⟩

/-- The message of the error thrown by Recommendation.export on an uninitialized model
(src/src/recommendation.ts lines 352-356). -/
def exportErrorMsg : String :=
  "Model must be initialized before export. Call fit() first."

/-- Model of Recommendation.export (src/src/recommendation.ts lines 351-380); the throw
on an uninitialized model becomes an Except.error. -/
def Recommendation.exportModel (M : Recommendation) : Except String SerializedModel :=
  if M.initialized then Except.ok (docOf M) else Except.error exportErrorMsg

/-- Model of the static Recommendation.from (src/src/recommendation.ts lines 419-453):
construct a fresh instance from the document configuration with a fresh
InMemoryStorage, import the storage snapshot, set both embedding variables directly from
the document arrays (tf.tensor2d keeps the numeric content verbatim) and copy the
initialized flag from the document. The version check only emits a console warning and
changes no state, so it does not appear here. -/
def Recommendation.fromModel (D : SerializedModel) : Recommendation :=
  let M := Recommendation.new D.epoch D.embeddingSize D.learningRate D.batchSize emptyStorage
  { M with
    storage := Storage.importData ⟨D.userMap, D.entityMap, D.reverseUserMap, D.reverseEntityMap⟩,
    userEmbeddings := D.userEmbeddings,
    entityEmbeddings := D.entityEmbeddings,
    initialized := D.initialized }

/-- One mutating registration call against a storage: the two slot-creating operations
of the StorageStrategy interface (src/src/storage.ts lines 37 and 51). -/
inductive RegOp where
  | user : JsId → RegOp
  | entity : JsId → RegOp
  deriving DecidableEq, Repr

/-- Apply one registration call to the storage, keeping only the state. -/
def applyRegOp (s : Storage) : RegOp → Storage
  | RegOp.user id => (s.getOrCreateUserIndex id).2
  | RegOp.entity id => (s.getOrCreateEntityIndex id).2

/-- Run a sequence of registration calls against a storage, in order. -/
def runOps (ops : List RegOp) (s : Storage) : Storage :=
  ops.foldl applyRegOp s

/-- Whether an Except value is a success. -/
def exceptIsOk (e : Except String SerializedModel) : Bool :=
  match e with
  | Except.ok _ => true
  | Except.error _ => false

/-! ### Lemmas about the stable descending sort of rankTop -/

theorem sortDesc_nil : sortDesc [] = [] := rfl

theorem sortDesc_cons (x : Entry) (xs : List Entry) :
    sortDesc (x :: xs) = insertDesc x (sortDesc xs) := rfl

theorem length_insertDesc (x : Entry) (l : List Entry) :
    (insertDesc x l).length = l.length + 1 := by
  induction l with
  | nil => rfl
  | cons y ys ih =>
    simp only [insertDesc]
    split
    · simp
    · simp [ih]

theorem length_sortDesc (l : List Entry) : (sortDesc l).length = l.length := by
  induction l with
  | nil => rfl
  | cons x xs ih => rw [sortDesc_cons, length_insertDesc, ih, List.length_cons]

theorem perm_insertDesc (x : Entry) (l : List Entry) :
    List.Perm (insertDesc x l) (x :: l) := by
  induction l with
  | nil => exact List.Perm.refl _
  | cons y ys ih =>
    simp only [insertDesc]
    split
    · exact List.Perm.refl _
    · exact (List.Perm.cons y ih).trans (List.Perm.swap x y ys)

theorem perm_sortDesc (l : List Entry) : List.Perm (sortDesc l) l := by
  induction l with
  | nil => exact List.Perm.refl _
  | cons x xs ih =>
    rw [sortDesc_cons]
    exact (perm_insertDesc x (sortDesc xs)).trans (List.Perm.cons x ih)

theorem head?_insertDesc (x : Entry) (l : List Entry) :
    (insertDesc x l).head? = some x ∨ (insertDesc x l).head? = l.head? := by
  cases l with
  | nil => left; rfl
  | cons y ys =>
    simp only [insertDesc]
    split
    · left; rfl
    · right; rfl

theorem chain'_insertDesc (x : Entry) (l : List Entry)
    (h : List.Chain' (fun a b : Entry => b.2 ≤ a.2) l) :
    List.Chain' (fun a b : Entry => b.2 ≤ a.2) (insertDesc x l) := by
  induction l with
  | nil => simp [insertDesc]
  | cons y ys ih =>
    obtain ⟨hy, hys⟩ := List.chain'_cons'.mp h
    simp only [insertDesc]
    split
    · rename_i hle
      exact List.chain'_cons.mpr ⟨hle, h⟩
    · rename_i hnle
      refine List.chain'_cons'.mpr ⟨?_, ih hys⟩
      intro z hz
      rcases head?_insertDesc x ys with h1 | h1
      · rw [h1] at hz
        simp only [Option.mem_def, Option.some_inj] at hz
        subst hz
        exact le_of_not_le hnle
      · rw [h1] at hz
        exact hy z hz

theorem chain'_sortDesc (l : List Entry) :
    List.Chain' (fun a b : Entry => b.2 ≤ a.2) (sortDesc l) := by
  induction l with
  | nil => simp [sortDesc_nil]
  | cons x xs ih =>
    rw [sortDesc_cons]
    exact chain'_insertDesc x (sortDesc xs) ih

theorem filter_insertDesc (q : ℚ) (x : Entry) (l : List Entry) :
    (insertDesc x l).filter (fun p => decide (p.2 = q)) =
      (x :: l).filter (fun p => decide (p.2 = q)) := by
  induction l with
  | nil => rfl
  | cons y ys ih =>
    simp only [insertDesc]
    split
    · rfl
    · rename_i hnle
      by_cases hx : x.2 = q
      · have hy : ¬ (y.2 = q) := fun hyq => hnle (le_of_eq (hyq.trans hx.symm))
        simp [List.filter_cons, hx, hy, ih]
      · simp [List.filter_cons, hx, ih]

theorem filter_sortDesc (q : ℚ) (l : List Entry) :
    (sortDesc l).filter (fun p => decide (p.2 = q)) =
      l.filter (fun p => decide (p.2 = q)) := by
  induction l with
  | nil => rfl
  | cons x xs ih =>
    rw [sortDesc_cons, filter_insertDesc, List.filter_cons, List.filter_cons, ih]

theorem length_entriesOf (scores : List ℚ) (ids : List JsId) :
    (entriesOf scores ids).length = scores.length := by
  simp [entriesOf]

theorem jsSliceTo_natCast {α : Type} (l : List α) (k : Nat) :
    jsSliceTo l (k : Int) = l.take k := by
  have hnot : ¬ ((k : Int) < 0) := by omega
  rw [jsSliceTo, jsSliceEnd, if_neg hnot, Int.toNat_natCast]
  calc l.take (min k l.length) = (l.take l.length).take k := (List.take_take k l.length l).symm
    _ = l.take k := by rw [List.take_length]

theorem jsSliceEnd_le (len : Nat) (e : Int) : jsSliceEnd len e ≤ len := by
  unfold jsSliceEnd
  split <;> omega

theorem length_rankTop (scores : List ℚ) (ids : List JsId) (c : Int) :
    (rankTop scores ids c).length = jsSliceEnd scores.length c := by
  unfold rankTop jsSliceTo
  rw [List.length_map, List.length_take, length_sortDesc, length_entriesOf]
  exact Nat.min_eq_left (jsSliceEnd_le _ _)

/-! ### Claim C4: rankTop is a deterministic stable descending ranking -/

/-- C4: for every score array and id array of equal length and every count k, rankTop
sorts descending by score (the sorted entry scores are nonincreasing), breaks ties by
preserving the original row order (for each score value q, the entries carrying q appear
in the sorted list exactly as they appear in the input), returns the ids of the first k
sorted entries, of which there are min k n (fewer than k when there are fewer
candidates, none when there are zero candidates). Determinism of repeated calls on the
same inputs is inherent: rankTop, and hence getUsers and getEntities on unchanged
embeddings (which call it, src/src/recommendation.ts lines 305 and 328), are pure
functions of their arguments. -/
theorem c4_rankTop_stable_descending (scores : List ℚ) (ids : List JsId) (q : ℚ)
    (k : Nat) (h : scores.length = ids.length) :
    List.Chain' (fun a b : Entry => b.2 ≤ a.2) (sortDesc (entriesOf scores ids)) ∧
    (sortDesc (entriesOf scores ids)).filter (fun p => decide (p.2 = q)) =
      (entriesOf scores ids).filter (fun p => decide (p.2 = q)) ∧
    rankTop scores ids (k : Int) =
      ((sortDesc (entriesOf scores ids)).map Prod.fst).take k ∧
    (rankTop scores ids (k : Int)).length = min k scores.length ∧
    (scores = [] → rankTop scores ids (k : Int) = []) := by
  refine ⟨chain'_sortDesc _, filter_sortDesc q _, ?_, ?_, ?_⟩
  · rw [rankTop, jsSliceTo_natCast, List.map_take]
  · rw [length_rankTop, jsSliceEnd, if_neg (by omega), Int.toNat_natCast]
  · intro hs
    subst hs
    simp [rankTop, entriesOf, sortDesc, jsSliceTo]

/-- Witness for C4 at scores [3, 1, 3] (a tie between rows 0 and 2), ids [a, b, c]
and k = 2: the tied score 3 keeps row order a before c, and the top two are a, c. -/
theorem c4_rankTop_stable_descending_witness :
    List.Chain' (fun a b : Entry => b.2 ≤ a.2)
      (sortDesc (entriesOf [3, 1, 3] [JsId.str "a", JsId.str "b", JsId.str "c"])) ∧
    (sortDesc (entriesOf [3, 1, 3] [JsId.str "a", JsId.str "b", JsId.str "c"])).filter
        (fun p => decide (p.2 = 3)) =
      (entriesOf [3, 1, 3] [JsId.str "a", JsId.str "b", JsId.str "c"]).filter
        (fun p => decide (p.2 = 3)) ∧
    rankTop [3, 1, 3] [JsId.str "a", JsId.str "b", JsId.str "c"] ((2 : Nat) : Int) =
      ((sortDesc (entriesOf [3, 1, 3]
        [JsId.str "a", JsId.str "b", JsId.str "c"])).map Prod.fst).take 2 ∧
    (rankTop [3, 1, 3] [JsId.str "a", JsId.str "b", JsId.str "c"]
        ((2 : Nat) : Int)).length =
      min 2 ([(3 : ℚ), 1, 3].length) ∧
    (([(3 : ℚ), 1, 3]) = [] →
      rankTop [3, 1, 3] [JsId.str "a", JsId.str "b", JsId.str "c"] ((2 : Nat) : Int) = []) :=
  c4_rankTop_stable_descending [3, 1, 3] [JsId.str "a", JsId.str "b", JsId.str "c"] 3 2 rfl

/-! ### Claim C10: count follows Array.prototype.slice semantics, negative included -/

/-- C10: for a known query id, the length of the list getEntities and getUsers return
with count c over n candidates is min c n for nonnegative c (so c = 0 yields the empty
list), and for negative c it is max (n + c) 0 - written here with truncating Int.toNat -
that is, all candidates except the lowest-ranked ones, following the
Array.prototype.slice(0, count) call in rankTop, not an empty list and not an error.
The hypotheses pin the candidate count: each embedding matrix has one row per stored id,
as in every state the training pipeline produces. -/
theorem c10_count_slice_semantics (M : Recommendation) (u e : JsId) (c : Int)
    (hu : (M.storage.getUserIndex u).isSome = true)
    (he : (M.storage.getEntityIndex e).isSome = true)
    (hE : M.entityEmbeddings.length = M.storage.getAllEntities.length)
    (hU : M.userEmbeddings.length = M.storage.getAllUsers.length) :
    (Recommendation.getEntities M u c).length =
      (if c < 0 then ((M.storage.getAllEntities.length : Int) + c).toNat
       else min c.toNat M.storage.getAllEntities.length) ∧
    (Recommendation.getUsers M e c).length =
      (if c < 0 then ((M.storage.getAllUsers.length : Int) + c).toNat
       else min c.toNat M.storage.getAllUsers.length) := by
  obtain ⟨ui, hui⟩ := Option.isSome_iff_exists.mp hu
  obtain ⟨ei, hei⟩ := Option.isSome_iff_exists.mp he
  constructor
  · simp only [Recommendation.getEntities, hui]
    rw [length_rankTop, List.length_map, hE, jsSliceEnd]
    split <;> omega
  · simp only [Recommendation.getUsers, hei]
    rw [length_rankTop, List.length_map, hU, jsSliceEnd]
    split <;> omega

/-- Witness for C10 at a model with one user and two entities and count -1: getEntities
returns 2 - 1 = 1 id and getUsers returns 1 - 1 = 0 ids. -/
theorem c10_count_slice_semantics_witness :
    (Recommendation.getEntities
      ⟨1, 1, 1, 1000,
       ⟨[(JsId.str "u", 0)], [(JsId.str "e1", 0), (JsId.str "e2", 1)],
        [JsId.str "u"], [JsId.str "e1", JsId.str "e2"]⟩,
       [[1]], [[1], [2]], true⟩ (JsId.str "u") (-1)).length =
      (if (-1 : Int) < 0 then
        (((Storage.getAllEntities
          ⟨[(JsId.str "u", 0)], [(JsId.str "e1", 0), (JsId.str "e2", 1)],
           [JsId.str "u"], [JsId.str "e1", JsId.str "e2"]⟩).length : Int) + (-1)).toNat
       else min (-1 : Int).toNat (Storage.getAllEntities
          ⟨[(JsId.str "u", 0)], [(JsId.str "e1", 0), (JsId.str "e2", 1)],
           [JsId.str "u"], [JsId.str "e1", JsId.str "e2"]⟩).length) ∧
    (Recommendation.getUsers
      ⟨1, 1, 1, 1000,
       ⟨[(JsId.str "u", 0)], [(JsId.str "e1", 0), (JsId.str "e2", 1)],
        [JsId.str "u"], [JsId.str "e1", JsId.str "e2"]⟩,
       [[1]], [[1], [2]], true⟩ (JsId.str "e1") (-1)).length =
      (if (-1 : Int) < 0 then
        (((Storage.getAllUsers
          ⟨[(JsId.str "u", 0)], [(JsId.str "e1", 0), (JsId.str "e2", 1)],
           [JsId.str "u"], [JsId.str "e1", JsId.str "e2"]⟩).length : Int) + (-1)).toNat
       else min (-1 : Int).toNat (Storage.getAllUsers
          ⟨[(JsId.str "u", 0)], [(JsId.str "e1", 0), (JsId.str "e2", 1)],
           [JsId.str "u"], [JsId.str "e1", JsId.str "e2"]⟩).length) :=
  c10_count_slice_semantics
    ⟨1, 1, 1, 1000,
     ⟨[(JsId.str "u", 0)], [(JsId.str "e1", 0), (JsId.str "e2", 1)],
      [JsId.str "u"], [JsId.str "e1", JsId.str "e2"]⟩,
     [[1]], [[1], [2]], true⟩ (JsId.str "u") (JsId.str "e1") (-1)
    (by decide) (by decide) rfl rfl

/-! ### Claim C6: fit with an empty interaction list is a no-op -/

/-- C6: calling fit with an empty interaction list (the default argument) is a no-op:
it returns successfully and leaves the whole model state - the initialized flag, both
embedding matrices and the storage mappings - unchanged, and in particular does not
initialize the embedding store. -/
theorem c6_fit_empty_noop (rndU rndE : Nat → Nat → ℚ) (upd : UpdateFn)
    (M : Recommendation) : Recommendation.fit rndU rndE upd M [] = M := rfl

/-! ### Claim C5: export on a model that was never initialized fails -/

/-- C5: export on a model whose initialized flag is false - such as one freshly
constructed and never driven through a successful non-empty fit - rejects with the
NotInitialized error instead of returning a document. -/
theorem c5_export_uninitialized (M : Recommendation) (h : M.initialized = false) :
    Recommendation.exportModel M = Except.error exportErrorMsg := by
  simp [Recommendation.exportModel, h]

/-- Witness for C5 at a freshly constructed model with the source default options. -/
theorem c5_export_uninitialized_witness :
    (Recommendation.new 5 16 (1/20) 1000 emptyStorage).initialized = false ∧
    Recommendation.exportModel (Recommendation.new 5 16 (1/20) 1000 emptyStorage) =
      Except.error exportErrorMsg :=
  ⟨rfl, c5_export_uninitialized (Recommendation.new 5 16 (1/20) 1000 emptyStorage) rfl⟩

/-! ### Claim C7: ranking queries with an unknown id return an empty list -/

/-- C7: for an identifier with no assigned slot in the storage, getEntities and getUsers
return the empty list for every count, without raising any error: both functions return
before touching the embedding tensors. -/
theorem c7_unknown_id_empty (M : Recommendation) (u e : JsId) (k k' : Int)
    (hu : M.storage.getUserIndex u = none) (he : M.storage.getEntityIndex e = none) :
    Recommendation.getEntities M u k = [] ∧ Recommendation.getUsers M e k' = [] := by
  constructor
  · simp [Recommendation.getEntities, hu]
  · simp [Recommendation.getUsers, he]

/-- Witness for C7 at a freshly constructed model and an unregistered id. -/
theorem c7_unknown_id_empty_witness :
    Recommendation.getEntities (Recommendation.new 5 16 (1/20) 1000 emptyStorage)
      (JsId.str "ghost") 10 = [] ∧
    Recommendation.getUsers (Recommendation.new 5 16 (1/20) 1000 emptyStorage)
      (JsId.str "ghost") 10 = [] :=
  c7_unknown_id_empty (Recommendation.new 5 16 (1/20) 1000 emptyStorage)
    (JsId.str "ghost") (JsId.str "ghost") 10 10 rfl rfl

/-! ### Claim C8: slot assignment is injective, gap-free and permanent -/

/-- The slot half of the identity-index invariant for one map: the values stored under
the keys, in insertion order, are exactly 0, 1, ..., n-1. -/
def MapGood (m : IdMap) : Prop :=
  m.map Prod.snd = List.range m.length ∧ (m.map Prod.fst).Nodup

theorem mapGet_eq_none_iff (m : IdMap) (id : JsId) :
    mapGet m id = none ↔ ∀ p ∈ m, p.1 ≠ id := by
  simp [mapGet, List.find?_eq_none]

theorem getOrCreateUserIndex_found (s : Storage) (id : JsId) (idx : Nat)
    (h : mapGet s.userMap id = some idx) :
    s.getOrCreateUserIndex id = (idx, s) := by
  unfold Storage.getOrCreateUserIndex
  rw [h]

theorem getOrCreateUserIndex_new (s : Storage) (id : JsId)
    (h : mapGet s.userMap id = none) :
    s.getOrCreateUserIndex id =
      (s.userMap.length,
       { s with userMap := s.userMap ++ [(id, s.userMap.length)],
                reverseUserMap := jsArrayWrite s.reverseUserMap s.userMap.length id }) := by
  unfold Storage.getOrCreateUserIndex
  rw [h]

theorem getOrCreateEntityIndex_found (s : Storage) (id : JsId) (idx : Nat)
    (h : mapGet s.entityMap id = some idx) :
    s.getOrCreateEntityIndex id = (idx, s) := by
  unfold Storage.getOrCreateEntityIndex
  rw [h]

theorem getOrCreateEntityIndex_new (s : Storage) (id : JsId)
    (h : mapGet s.entityMap id = none) :
    s.getOrCreateEntityIndex id =
      (s.entityMap.length,
       { s with entityMap := s.entityMap ++ [(id, s.entityMap.length)],
                reverseEntityMap := jsArrayWrite s.reverseEntityMap s.entityMap.length id }) := by
  unfold Storage.getOrCreateEntityIndex
  rw [h]

theorem mapGood_append (m : IdMap) (id : JsId) (h : MapGood m)
    (hid : id ∉ m.map Prod.fst) : MapGood (m ++ [(id, m.length)]) := by
  constructor
  · rw [List.map_append, h.1, List.length_append]
    simp [List.range_succ]
  · rw [List.map_append]
    refine h.2.append (List.nodup_singleton id) ?_
    intro a ha hb
    simp only [List.map_cons, List.map_nil, List.mem_singleton] at hb
    subst hb
    exact hid ha

theorem applyRegOp_good (s : Storage) (op : RegOp)
    (hu : MapGood s.userMap) (he : MapGood s.entityMap) :
    MapGood (applyRegOp s op).userMap ∧ MapGood (applyRegOp s op).entityMap := by
  cases op with
  | user id =>
    cases h : mapGet s.userMap id with
    | some idx =>
      simp only [applyRegOp, getOrCreateUserIndex_found s id idx h]
      exact ⟨hu, he⟩
    | none =>
      have hall := (mapGet_eq_none_iff s.userMap id).mp h
      have hid : id ∉ s.userMap.map Prod.fst := by
        intro hmem
        obtain ⟨p, hp, hp1⟩ := List.mem_map.mp hmem
        exact hall p hp hp1
      simp only [applyRegOp, getOrCreateUserIndex_new s id h]
      exact ⟨mapGood_append s.userMap id hu hid, he⟩
  | entity id =>
    cases h : mapGet s.entityMap id with
    | some idx =>
      simp only [applyRegOp, getOrCreateEntityIndex_found s id idx h]
      exact ⟨hu, he⟩
    | none =>
      have hall := (mapGet_eq_none_iff s.entityMap id).mp h
      have hid : id ∉ s.entityMap.map Prod.fst := by
        intro hmem
        obtain ⟨p, hp, hp1⟩ := List.mem_map.mp hmem
        exact hall p hp hp1
      simp only [applyRegOp, getOrCreateEntityIndex_new s id h]
      exact ⟨hu, mapGood_append s.entityMap id he hid⟩

theorem runOps_cons (op : RegOp) (rest : List RegOp) (s : Storage) :
    runOps (op :: rest) s = runOps rest (applyRegOp s op) := rfl

theorem runOps_append (l1 l2 : List RegOp) (s : Storage) :
    runOps (l1 ++ l2) s = runOps l2 (runOps l1 s) := by
  simp [runOps, List.foldl_append]

theorem runOps_good (ops : List RegOp) (s : Storage)
    (hu : MapGood s.userMap) (he : MapGood s.entityMap) :
    MapGood (runOps ops s).userMap ∧ MapGood (runOps ops s).entityMap := by
  induction ops generalizing s with
  | nil => exact ⟨hu, he⟩
  | cons op rest ih =>
    rw [runOps_cons]
    obtain ⟨hu', he'⟩ := applyRegOp_good s op hu he
    exact ih _ hu' he'

theorem applyRegOp_userMap_extend (s : Storage) (op : RegOp) :
    ∃ t, (applyRegOp s op).userMap = s.userMap ++ t := by
  cases op with
  | user id =>
    cases h : mapGet s.userMap id with
    | some idx =>
      exact ⟨[], by simp [applyRegOp, getOrCreateUserIndex_found s id idx h]⟩
    | none =>
      exact ⟨[(id, s.userMap.length)], by simp [applyRegOp, getOrCreateUserIndex_new s id h]⟩
  | entity id =>
    cases h : mapGet s.entityMap id with
    | some idx =>
      exact ⟨[], by simp [applyRegOp, getOrCreateEntityIndex_found s id idx h]⟩
    | none =>
      exact ⟨[], by simp [applyRegOp, getOrCreateEntityIndex_new s id h]⟩

theorem applyRegOp_entityMap_extend (s : Storage) (op : RegOp) :
    ∃ t, (applyRegOp s op).entityMap = s.entityMap ++ t := by
  cases op with
  | user id =>
    cases h : mapGet s.userMap id with
    | some idx =>
      exact ⟨[], by simp [applyRegOp, getOrCreateUserIndex_found s id idx h]⟩
    | none =>
      exact ⟨[], by simp [applyRegOp, getOrCreateUserIndex_new s id h]⟩
  | entity id =>
    cases h : mapGet s.entityMap id with
    | some idx =>
      exact ⟨[], by simp [applyRegOp, getOrCreateEntityIndex_found s id idx h]⟩
    | none =>
      exact ⟨[(id, s.entityMap.length)], by simp [applyRegOp, getOrCreateEntityIndex_new s id h]⟩

theorem runOps_userMap_extend (ops : List RegOp) (s : Storage) :
    ∃ t, (runOps ops s).userMap = s.userMap ++ t := by
  induction ops generalizing s with
  | nil => exact ⟨[], by simp [runOps]⟩
  | cons op rest ih =>
    obtain ⟨t1, h1⟩ := applyRegOp_userMap_extend s op
    obtain ⟨t2, h2⟩ := ih (applyRegOp s op)
    refine ⟨t1 ++ t2, ?_⟩
    rw [runOps_cons, h2, h1, List.append_assoc]

theorem runOps_entityMap_extend (ops : List RegOp) (s : Storage) :
    ∃ t, (runOps ops s).entityMap = s.entityMap ++ t := by
  induction ops generalizing s with
  | nil => exact ⟨[], by simp [runOps]⟩
  | cons op rest ih =>
    obtain ⟨t1, h1⟩ := applyRegOp_entityMap_extend s op
    obtain ⟨t2, h2⟩ := ih (applyRegOp s op)
    refine ⟨t1 ++ t2, ?_⟩
    rw [runOps_cons, h2, h1, List.append_assoc]

/-- C8: under every sequence of getOrCreateUserIndex and getOrCreateEntityIndex calls
from a fresh InMemoryStorage, each map assigns the slots 0..n-1 in first-sight order
(so a new id always receives the next free slot, distinct ids receive distinct slots and
the used slots are gap-free), the registered ids are pairwise distinct, and any further
call sequence leaves every existing entry - id and slot alike - in place, extending the
map only at the end: once assigned, a slot never changes its identifier. -/
theorem c8_slot_assignment_invariants (ops more : List RegOp) :
    ((runOps ops emptyStorage).userMap.map Prod.snd =
       List.range (runOps ops emptyStorage).userMap.length) ∧
    ((runOps ops emptyStorage).userMap.map Prod.fst).Nodup ∧
    ((runOps ops emptyStorage).entityMap.map Prod.snd =
       List.range (runOps ops emptyStorage).entityMap.length) ∧
    ((runOps ops emptyStorage).entityMap.map Prod.fst).Nodup ∧
    (runOps (ops ++ more) emptyStorage).userMap.take
        (runOps ops emptyStorage).userMap.length = (runOps ops emptyStorage).userMap ∧
    (runOps (ops ++ more) emptyStorage).entityMap.take
        (runOps ops emptyStorage).entityMap.length = (runOps ops emptyStorage).entityMap := by
  obtain ⟨hu, he⟩ :=
    runOps_good ops emptyStorage ⟨rfl, List.nodup_nil⟩ ⟨rfl, List.nodup_nil⟩
  obtain ⟨tU, htU⟩ := runOps_userMap_extend more (runOps ops emptyStorage)
  obtain ⟨tE, htE⟩ := runOps_entityMap_extend more (runOps ops emptyStorage)
  refine ⟨hu.1, hu.2, he.1, he.2, ?_, ?_⟩
  · rw [runOps_append, htU, List.take_left]
  · rw [runOps_append, htE, List.take_left]

/-! ### Claim C9: from copies the initialized flag of the document verbatim -/

/-- C9: Recommendation.from copies the initialized flag of the document verbatim: the
embedding matrices are always set from the document arrays, yet export on the resulting
model succeeds exactly when the document flag was true, and rejects with the
NotInitialized error when it was false. -/
theorem c9_from_copies_flag (D : SerializedModel) :
    (Recommendation.fromModel D).initialized = D.initialized ∧
    (Recommendation.fromModel D).userEmbeddings = D.userEmbeddings ∧
    (Recommendation.fromModel D).entityEmbeddings = D.entityEmbeddings ∧
    Recommendation.exportModel (Recommendation.fromModel D) =
      (if D.initialized then Except.ok (docOf (Recommendation.fromModel D))
       else Except.error exportErrorMsg) := by
  refine ⟨rfl, rfl, rfl, ?_⟩
  by_cases h : D.initialized = true <;>
    simp [Recommendation.exportModel, Recommendation.fromModel, Recommendation.new, h]

/-! ### Claim C1: the export then import round trip is inference-identical -/

theorem mapSet_absent (m : IdMap) (id : JsId) (v : Nat)
    (h : ∀ p ∈ m, p.1 ≠ id) : mapSet m id v = m ++ [(id, v)] := by
  have hf : m.find? (fun p => decide (p.1 = id)) = none := by
    rw [List.find?_eq_none]
    intro p hp
    simp [h p hp]
  simp [mapSet, hf]

theorem foldl_mapSet_eq_append (l : IdMap) (acc : IdMap)
    (hcross : ∀ p ∈ acc, ∀ q ∈ l, p.1 ≠ q.1)
    (hl : (l.map Prod.fst).Nodup) :
    l.foldl (fun m p => mapSet m p.1 p.2) acc = acc ++ l := by
  induction l generalizing acc with
  | nil => simp
  | cons p rest ih =>
    have hl' : (p.1 :: rest.map Prod.fst).Nodup := by
      rw [← List.map_cons]
      exact hl
    have hnd := List.nodup_cons.mp hl'
    have habs : ∀ q ∈ acc, q.1 ≠ p.1 :=
      fun q hq => hcross q hq p (List.mem_cons_self p rest)
    rw [List.foldl_cons, mapSet_absent acc p.1 p.2 habs]
    have hcross2 : ∀ a ∈ acc ++ [(p.1, p.2)], ∀ q ∈ rest, a.1 ≠ q.1 := by
      intro a ha q hq
      rcases List.mem_append.mp ha with ha | ha
      · exact hcross a ha q (List.mem_cons_of_mem p hq)
      · simp only [List.mem_singleton] at ha
        subst ha
        intro hcontra
        exact hnd.1 (hcontra ▸ List.mem_map_of_mem Prod.fst hq)
    rw [ih (acc ++ [(p.1, p.2)]) hcross2 hnd.2, List.append_assoc]
    rfl

/-- new Map over an entry list with pairwise distinct keys reproduces the list: the
round trip of a storage snapshot through importData is the identity on each map. -/
theorem mapFromEntries_self (l : IdMap) (hl : (l.map Prod.fst).Nodup) :
    mapFromEntries l = l := by
  have h := foldl_mapSet_eq_append l [] (fun p hp => absurd hp (List.not_mem_nil p)) hl
  simpa [mapFromEntries] using h

/-- Importing the document written by export rebuilds the very same model state:
configuration, storage, embedding matrices and flag all coincide. -/
theorem fromModel_docOf (M : Recommendation)
    (hu : (M.storage.userMap.map Prod.fst).Nodup)
    (he : (M.storage.entityMap.map Prod.fst).Nodup) :
    Recommendation.fromModel (docOf M) = M := by
  cases M with
  | mk ep es lr bs st ue ee init =>
    cases st with
    | mk um em ru re =>
      simp only [Recommendation.fromModel, docOf, Recommendation.new,
        Storage.importData, Storage.exportData]
      rw [mapFromEntries_self um hu, mapFromEntries_self em he]

/-- C1: for every initialized model M whose storage maps carry pairwise distinct keys
(as every reachable InMemoryStorage state does), export succeeds with the snapshot
document, and the model rebuilt from that document by Recommendation.from answers every
getEntities and getUsers query with exactly the same ordered id list as M: the round
trip restores the configuration, both embedding matrices and the whole identity index
verbatim, so inference - scores and their ordering alike - is bit-for-bit identical. -/
theorem c1_export_import_roundtrip (M : Recommendation) (u e : JsId) (k : Int)
    (hu : (M.storage.userMap.map Prod.fst).Nodup)
    (he : (M.storage.entityMap.map Prod.fst).Nodup)
    (hi : M.initialized = true) :
    Recommendation.exportModel M = Except.ok (docOf M) ∧
    Recommendation.getEntities (Recommendation.fromModel (docOf M)) u k =
      Recommendation.getEntities M u k ∧
    Recommendation.getUsers (Recommendation.fromModel (docOf M)) e k =
      Recommendation.getUsers M e k := by
  refine ⟨by simp [Recommendation.exportModel, hi], ?_, ?_⟩ <;>
    rw [fromModel_docOf M hu he]

/-- Witness for C1 at a one-user, one-entity initialized model. -/
theorem c1_export_import_roundtrip_witness :
    Recommendation.exportModel
        ⟨1, 1, 1, 1000,
         ⟨[(JsId.str "u", 0)], [(JsId.str "e", 0)], [JsId.str "u"], [JsId.str "e"]⟩,
         [[1]], [[2]], true⟩ =
      Except.ok (docOf
        ⟨1, 1, 1, 1000,
         ⟨[(JsId.str "u", 0)], [(JsId.str "e", 0)], [JsId.str "u"], [JsId.str "e"]⟩,
         [[1]], [[2]], true⟩) ∧
    Recommendation.getEntities (Recommendation.fromModel (docOf
        ⟨1, 1, 1, 1000,
         ⟨[(JsId.str "u", 0)], [(JsId.str "e", 0)], [JsId.str "u"], [JsId.str "e"]⟩,
         [[1]], [[2]], true⟩)) (JsId.str "u") 10 =
      Recommendation.getEntities
        ⟨1, 1, 1, 1000,
         ⟨[(JsId.str "u", 0)], [(JsId.str "e", 0)], [JsId.str "u"], [JsId.str "e"]⟩,
         [[1]], [[2]], true⟩ (JsId.str "u") 10 ∧
    Recommendation.getUsers (Recommendation.fromModel (docOf
        ⟨1, 1, 1, 1000,
         ⟨[(JsId.str "u", 0)], [(JsId.str "e", 0)], [JsId.str "u"], [JsId.str "e"]⟩,
         [[1]], [[2]], true⟩)) (JsId.str "e") 10 =
      Recommendation.getUsers
        ⟨1, 1, 1, 1000,
         ⟨[(JsId.str "u", 0)], [(JsId.str "e", 0)], [JsId.str "u"], [JsId.str "e"]⟩,
         [[1]], [[2]], true⟩ (JsId.str "e") 10 :=
  c1_export_import_roundtrip
    ⟨1, 1, 1, 1000,
     ⟨[(JsId.str "u", 0)], [(JsId.str "e", 0)], [JsId.str "u"], [JsId.str "e"]⟩,
     [[1]], [[2]], true⟩ (JsId.str "u") (JsId.str "e") 10
    (by decide) (by decide) rfl

/-! ### Frame lemmas for the sizing and training phases of fit -/

theorem length_createEmbeddingsInBatches (rnd : Nat → Nat → ℚ) (n d : Nat) :
    (createEmbeddingsInBatches rnd n d).length = n := by
  simp [createEmbeddingsInBatches]

theorem length_jsArrayWrite (l : List JsId) (i : Nat) (x : JsId) :
    (jsArrayWrite l i x).length = max l.length (i + 1) := by
  unfold jsArrayWrite
  split
  · rw [List.length_set]
    omega
  · simp only [List.length_append, List.length_replicate, List.length_cons,
      List.length_nil]
    omega

theorem getOrCreateUserIndex_reverse (s : Storage) (id : JsId) :
    s.reverseUserMap.length ≤ ((s.getOrCreateUserIndex id).2).reverseUserMap.length ∧
    ((s.getOrCreateUserIndex id).2).reverseEntityMap = s.reverseEntityMap := by
  cases h : mapGet s.userMap id with
  | some idx =>
    rw [getOrCreateUserIndex_found s id idx h]
    exact ⟨le_refl _, rfl⟩
  | none =>
    rw [getOrCreateUserIndex_new s id h]
    refine ⟨?_, rfl⟩
    show s.reverseUserMap.length ≤ (jsArrayWrite s.reverseUserMap s.userMap.length id).length
    rw [length_jsArrayWrite]
    omega

theorem getOrCreateEntityIndex_reverse (s : Storage) (id : JsId) :
    s.reverseEntityMap.length ≤ ((s.getOrCreateEntityIndex id).2).reverseEntityMap.length ∧
    ((s.getOrCreateEntityIndex id).2).reverseUserMap = s.reverseUserMap := by
  cases h : mapGet s.entityMap id with
  | some idx =>
    rw [getOrCreateEntityIndex_found s id idx h]
    exact ⟨le_refl _, rfl⟩
  | none =>
    rw [getOrCreateEntityIndex_new s id h]
    refine ⟨?_, rfl⟩
    show s.reverseEntityMap.length ≤ (jsArrayWrite s.reverseEntityMap s.entityMap.length id).length
    rw [length_jsArrayWrite]
    omega

theorem registerAll_cons (s : Storage) (it : Interaction) (rest : List Interaction) :
    registerAll s (it :: rest) =
      registerAll (((s.getOrCreateUserIndex it.user).2.getOrCreateEntityIndex it.entity).2)
        rest := rfl

/-- Registration only ever grows the two reverse arrays of the identity index. -/
theorem registerAll_mono (s : Storage) (data : List Interaction) :
    s.reverseUserMap.length ≤ (registerAll s data).reverseUserMap.length ∧
    s.reverseEntityMap.length ≤ (registerAll s data).reverseEntityMap.length := by
  induction data generalizing s with
  | nil => exact ⟨le_refl _, le_refl _⟩
  | cons it rest ih =>
    rw [registerAll_cons]
    obtain ⟨hu1, he1⟩ := getOrCreateUserIndex_reverse s it.user
    obtain ⟨he2, hu2⟩ := getOrCreateEntityIndex_reverse ((s.getOrCreateUserIndex it.user).2) it.entity
    obtain ⟨ihu, ihe⟩ := ih (((s.getOrCreateUserIndex it.user).2.getOrCreateEntityIndex it.entity).2)
    constructor
    · exact le_trans (le_trans hu1 (le_of_eq (congrArg List.length hu2.symm))) ihu
    · exact le_trans (le_trans (le_of_eq (congrArg List.length he1.symm)) he2) ihe

/-- State of resizeEmbeddingsIfNeeded: the storage and the flag are untouched, each
matrix either keeps its rows verbatim or gets the missing freshly drawn rows appended
after them. -/
theorem resize_state (rndU rndE : Nat → Nat → ℚ) (M : Recommendation) :
    (M.resizeEmbeddingsIfNeeded rndU rndE).storage = M.storage ∧
    (M.resizeEmbeddingsIfNeeded rndU rndE).initialized = M.initialized ∧
    (M.resizeEmbeddingsIfNeeded rndU rndE).userEmbeddings =
      (if M.userEmbeddings.length < M.storage.getAllUsers.length then
         M.userEmbeddings ++ createEmbeddingsInBatches rndU
           (M.storage.getAllUsers.length - M.userEmbeddings.length) M.embeddingSize
       else M.userEmbeddings) ∧
    (M.resizeEmbeddingsIfNeeded rndU rndE).entityEmbeddings =
      (if M.entityEmbeddings.length < M.storage.getAllEntities.length then
         M.entityEmbeddings ++ createEmbeddingsInBatches rndE
           (M.storage.getAllEntities.length - M.entityEmbeddings.length) M.embeddingSize
       else M.entityEmbeddings) := by
  unfold Recommendation.resizeEmbeddingsIfNeeded
  by_cases h1 : M.userEmbeddings.length < M.storage.getAllUsers.length <;>
    by_cases h2 : M.entityEmbeddings.length < M.storage.getAllEntities.length <;>
      simp [h1, h2]

theorem trainInteraction_frame (upd : UpdateFn) (t : Nat) (M : Recommendation)
    (it : Interaction) :
    (Recommendation.trainInteraction upd t M it).storage = M.storage ∧
    (Recommendation.trainInteraction upd t M it).userEmbeddings.length =
      M.userEmbeddings.length ∧
    (Recommendation.trainInteraction upd t M it).entityEmbeddings.length =
      M.entityEmbeddings.length ∧
    (Recommendation.trainInteraction upd t M it).initialized = M.initialized := by
  unfold Recommendation.trainInteraction
  cases hu : M.storage.getUserIndex it.user <;>
    cases he : M.storage.getEntityIndex it.entity <;>
      simp [applyUpd]

theorem trainEpoch_cons (upd : UpdateFn) (it : Interaction) (rest : List Interaction)
    (Mt : Recommendation × Nat) :
    Recommendation.trainEpoch upd (it :: rest) Mt =
      Recommendation.trainEpoch upd rest
        (Recommendation.trainInteraction upd Mt.2 Mt.1 it, Mt.2 + 1) := rfl

theorem trainEpoch_frame (upd : UpdateFn) (data : List Interaction)
    (Mt : Recommendation × Nat) :
    (Recommendation.trainEpoch upd data Mt).1.storage = Mt.1.storage ∧
    (Recommendation.trainEpoch upd data Mt).1.userEmbeddings.length =
      Mt.1.userEmbeddings.length ∧
    (Recommendation.trainEpoch upd data Mt).1.entityEmbeddings.length =
      Mt.1.entityEmbeddings.length ∧
    (Recommendation.trainEpoch upd data Mt).1.initialized = Mt.1.initialized := by
  induction data generalizing Mt with
  | nil => exact ⟨rfl, rfl, rfl, rfl⟩
  | cons it rest ih =>
    rw [trainEpoch_cons]
    obtain ⟨h1, h2, h3, h4⟩ :=
      ih (Recommendation.trainInteraction upd Mt.2 Mt.1 it, Mt.2 + 1)
    obtain ⟨g1, g2, g3, g4⟩ := trainInteraction_frame upd Mt.2 Mt.1 it
    exact ⟨h1.trans g1, h2.trans g2, h3.trans g3, h4.trans g4⟩

theorem epochs_frame (upd : UpdateFn) (data : List Interaction) (l : List Nat)
    (Mt : Recommendation × Nat) :
    ((l.foldl (fun Mt _ => Recommendation.trainEpoch upd data Mt) Mt).1.storage =
       Mt.1.storage) ∧
    ((l.foldl (fun Mt _ => Recommendation.trainEpoch upd data Mt) Mt).1.userEmbeddings.length =
       Mt.1.userEmbeddings.length) ∧
    ((l.foldl (fun Mt _ => Recommendation.trainEpoch upd data Mt) Mt).1.entityEmbeddings.length =
       Mt.1.entityEmbeddings.length) ∧
    ((l.foldl (fun Mt _ => Recommendation.trainEpoch upd data Mt) Mt).1.initialized =
       Mt.1.initialized) := by
  induction l generalizing Mt with
  | nil => exact ⟨rfl, rfl, rfl, rfl⟩
  | cons n rest ih =>
    rw [List.foldl_cons]
    obtain ⟨h1, h2, h3, h4⟩ := ih (Recommendation.trainEpoch upd data Mt)
    obtain ⟨g1, g2, g3, g4⟩ := trainEpoch_frame upd data Mt
    exact ⟨h1.trans g1, h2.trans g2, h3.trans g3, h4.trans g4⟩

theorem length_append_create (rnd : Nat → Nat → ℚ) (m : List (List ℚ)) (c d : Nat)
    (h : m.length ≤ c) :
    (m ++ createEmbeddingsInBatches rnd (c - m.length) d).length = c := by
  rw [List.length_append, length_createEmbeddingsInBatches]
  omega

/-- After the registration and sizing phases of a fit call (whether they initialize or
grow), the storage is the registered one and each matrix has exactly one row per slot
of its map - provided the model entered with no more rows than slots, as every state
the pipeline produces does. -/
theorem fitSized_lengths (rndU rndE : Nat → Nat → ℚ) (M : Recommendation)
    (data : List Interaction)
    (hinv : M.initialized = true →
      M.userEmbeddings.length ≤ M.storage.getAllUsers.length ∧
      M.entityEmbeddings.length ≤ M.storage.getAllEntities.length) :
    (M.fitSized rndU rndE data).storage = registerAll M.storage data ∧
    (M.fitSized rndU rndE data).userEmbeddings.length =
      (registerAll M.storage data).getAllUsers.length ∧
    (M.fitSized rndU rndE data).entityEmbeddings.length =
      (registerAll M.storage data).getAllEntities.length := by
  unfold Recommendation.fitSized
  by_cases hin : M.initialized = true
  · rw [if_pos hin]
    obtain ⟨hU0, hE0⟩ := hinv hin
    obtain ⟨hmU, hmE⟩ := registerAll_mono M.storage data
    obtain ⟨hs, _hi, huE, heE⟩ :=
      resize_state rndU rndE { M with storage := registerAll M.storage data }
    refine ⟨hs, ?_, ?_⟩
    · rw [huE]
      split
      · exact length_append_create _ _ _ _ (by omega)
      · rename_i hlt
        simp only [Storage.getAllUsers] at *
        omega
    · rw [heE]
      split
      · exact length_append_create _ _ _ _ (by omega)
      · rename_i hlt
        simp only [Storage.getAllEntities] at *
        omega
  · rw [if_neg hin]
    refine ⟨rfl, ?_, ?_⟩ <;>
      simp [Recommendation.initializeEmbeddings, length_createEmbeddingsInBatches]

/-! ### Claim C2: after every successful fit, one embedding row per registered slot -/

/-- C2: after any successful fit call with a non-empty interaction list, the row count
of userEmbeddings equals the number of user slots registered in the storage (the length
of getAllUsers) and the row count of entityEmbeddings equals the number of entity slots
(the length of getAllEntities). The hypothesis restricts the starting state of an
already initialized model to one with no more rows than slots, which holds for every
state this pipeline can produce; an uninitialized model needs no hypothesis. -/
theorem c2_fit_row_counts (rndU rndE : Nat → Nat → ℚ) (upd : UpdateFn)
    (M : Recommendation) (data : List Interaction) (hne : data ≠ [])
    (hinv : M.initialized = true →
      M.userEmbeddings.length ≤ M.storage.getAllUsers.length ∧
      M.entityEmbeddings.length ≤ M.storage.getAllEntities.length) :
    (Recommendation.fit rndU rndE upd M data).userEmbeddings.length =
      (Recommendation.fit rndU rndE upd M data).storage.getAllUsers.length ∧
    (Recommendation.fit rndU rndE upd M data).entityEmbeddings.length =
      (Recommendation.fit rndU rndE upd M data).storage.getAllEntities.length := by
  unfold Recommendation.fit
  rw [if_neg (by simpa [List.isEmpty_iff] using hne)]
  obtain ⟨h1, h2, h3, _h4⟩ :=
    epochs_frame upd data (List.range M.epoch) (M.fitSized rndU rndE data, 0)
  rw [h1, h2, h3]
  obtain ⟨g1, g2, g3⟩ := fitSized_lengths rndU rndE M data hinv
  rw [g1, g2, g3]
  exact ⟨rfl, rfl⟩

/-- Witness for C2: a fresh model fitted with one interaction ends with one user row
for its one user slot and one entity row for its one entity slot. -/
theorem c2_fit_row_counts_witness :
    (Recommendation.fit (fun _ _ => 0) (fun _ _ => 0) (fun _ _ _ _ _ _ _ x => x)
        (Recommendation.new 1 2 (1/20) 1000 emptyStorage)
        [⟨JsId.str "u1", JsId.str "e1", none⟩]).userEmbeddings.length =
      (Recommendation.fit (fun _ _ => 0) (fun _ _ => 0) (fun _ _ _ _ _ _ _ x => x)
        (Recommendation.new 1 2 (1/20) 1000 emptyStorage)
        [⟨JsId.str "u1", JsId.str "e1", none⟩]).storage.getAllUsers.length ∧
    (Recommendation.fit (fun _ _ => 0) (fun _ _ => 0) (fun _ _ _ _ _ _ _ x => x)
        (Recommendation.new 1 2 (1/20) 1000 emptyStorage)
        [⟨JsId.str "u1", JsId.str "e1", none⟩]).entityEmbeddings.length =
      (Recommendation.fit (fun _ _ => 0) (fun _ _ => 0) (fun _ _ _ _ _ _ _ x => x)
        (Recommendation.new 1 2 (1/20) 1000 emptyStorage)
        [⟨JsId.str "u1", JsId.str "e1", none⟩]).storage.getAllEntities.length :=
  c2_fit_row_counts (fun _ _ => 0) (fun _ _ => 0) (fun _ _ _ _ _ _ _ x => x)
    (Recommendation.new 1 2 (1/20) 1000 emptyStorage)
    [⟨JsId.str "u1", JsId.str "e1", none⟩]
    (by decide) (fun h => absurd h (by decide))

/-! ### Claim C3: growing preserves prior rows and appends new rows at the end -/

/-- C3: for a fit call on an already initialized model (one that therefore only adds
new ids during registration), every slot s that had an embedding row before the call
still holds exactly the same vector immediately after the registration and sizing
phases - after resizeEmbeddingsIfNeeded, before any gradient step of that call - and
whatever rows were created are appended strictly at the end of each matrix. -/
theorem c3_grow_preserves_rows (rndU rndE : Nat → Nat → ℚ) (M : Recommendation)
    (data : List Interaction) (hi : M.initialized = true) :
    (∀ s, s < M.userEmbeddings.length →
      (M.fitSized rndU rndE data).userEmbeddings.get? s = M.userEmbeddings.get? s) ∧
    (∀ s, s < M.entityEmbeddings.length →
      (M.fitSized rndU rndE data).entityEmbeddings.get? s = M.entityEmbeddings.get? s) ∧
    (∃ tU, (M.fitSized rndU rndE data).userEmbeddings = M.userEmbeddings ++ tU) ∧
    (∃ tE, (M.fitSized rndU rndE data).entityEmbeddings = M.entityEmbeddings ++ tE) := by
  unfold Recommendation.fitSized
  rw [if_pos hi]
  obtain ⟨_hs, _hi2, huE, heE⟩ :=
    resize_state rndU rndE { M with storage := registerAll M.storage data }
  have hU : ∃ tU, ({ M with storage := registerAll M.storage data
      }.resizeEmbeddingsIfNeeded rndU rndE).userEmbeddings = M.userEmbeddings ++ tU := by
    rw [huE]
    split
    · exact ⟨_, rfl⟩
    · exact ⟨[], (List.append_nil _).symm⟩
  have hE : ∃ tE, ({ M with storage := registerAll M.storage data
      }.resizeEmbeddingsIfNeeded rndU rndE).entityEmbeddings = M.entityEmbeddings ++ tE := by
    rw [heE]
    split
    · exact ⟨_, rfl⟩
    · exact ⟨[], (List.append_nil _).symm⟩
  obtain ⟨tU, htU⟩ := hU
  obtain ⟨tE, htE⟩ := hE
  refine ⟨?_, ?_, ⟨tU, htU⟩, ⟨tE, htE⟩⟩
  · intro s hs
    rw [htU, List.get?_append hs]
  · intro s hs
    rw [htE, List.get?_append hs]

/-- Witness for C3: an initialized one-user, one-entity model fitted with an
interaction naming a brand-new entity keeps its old rows in place. -/
theorem c3_grow_preserves_rows_witness :
    (∀ s, s < ([[(5 : ℚ)]] : List (List ℚ)).length →
      ((Recommendation.fitSized (fun _ _ => 0) (fun _ _ => 0)
        ⟨1, 1, 1, 1000,
         ⟨[(JsId.str "u", 0)], [(JsId.str "e", 0)], [JsId.str "u"], [JsId.str "e"]⟩,
         [[5]], [[7]], true⟩
        [⟨JsId.str "u", JsId.str "e2", none⟩]).userEmbeddings.get? s =
        ([[(5 : ℚ)]] : List (List ℚ)).get? s)) ∧
    (∀ s, s < ([[(7 : ℚ)]] : List (List ℚ)).length →
      ((Recommendation.fitSized (fun _ _ => 0) (fun _ _ => 0)
        ⟨1, 1, 1, 1000,
         ⟨[(JsId.str "u", 0)], [(JsId.str "e", 0)], [JsId.str "u"], [JsId.str "e"]⟩,
         [[5]], [[7]], true⟩
        [⟨JsId.str "u", JsId.str "e2", none⟩]).entityEmbeddings.get? s =
        ([[(7 : ℚ)]] : List (List ℚ)).get? s)) ∧
    (∃ tU, (Recommendation.fitSized (fun _ _ => 0) (fun _ _ => 0)
        ⟨1, 1, 1, 1000,
         ⟨[(JsId.str "u", 0)], [(JsId.str "e", 0)], [JsId.str "u"], [JsId.str "e"]⟩,
         [[5]], [[7]], true⟩
        [⟨JsId.str "u", JsId.str "e2", none⟩]).userEmbeddings =
        ([[(5 : ℚ)]] : List (List ℚ)) ++ tU) ∧
    (∃ tE, (Recommendation.fitSized (fun _ _ => 0) (fun _ _ => 0)
        ⟨1, 1, 1, 1000,
         ⟨[(JsId.str "u", 0)], [(JsId.str "e", 0)], [JsId.str "u"], [JsId.str "e"]⟩,
         [[5]], [[7]], true⟩
        [⟨JsId.str "u", JsId.str "e2", none⟩]).entityEmbeddings =
        ([[(7 : ℚ)]] : List (List ℚ)) ++ tE) :=
  c3_grow_preserves_rows (fun _ _ => 0) (fun _ _ => 0)
    ⟨1, 1, 1, 1000,
     ⟨[(JsId.str "u", 0)], [(JsId.str "e", 0)], [JsId.str "u"], [JsId.str "e"]⟩,
     [[5]], [[7]], true⟩
    [⟨JsId.str "u", JsId.str "e2", none⟩] rfl

end RecommendTF
